import Mathlib

/-!
# pxe-pilot: command-line client and HTTP helper

A shallow embedding of `cli.go` (the actions registered by `setupCLI`) and of
`common/http/http.go` (the function `HTTP`), and a model of the server-side
deployment orchestrator as the specification describes it, followed by the
properties proved about them.

Conventions of the embedding:

* a Go `error` is an `Option String`: `none` is `nil`, `some msg` is an error
  whose `Error()` text is `msg`;
* a Go `int` status code is an `Int` (the code only compares it with literals);
* a nilable pointer `*T` is an `Option T`;
* the effects of an action (writes to `os.Stdout`, requests handed to the HTTP
  helper, `cli.Exit`) are made explicit by the state monad `Cmd`; `cli.Exit`
  ends the action on the spot, as the panic it raises does in `mow.cli`;
* `logger.Init` only configures logging and is left out of the actions.
-/

namespace PxePilot

/-- Go error value. -/
abbrev GoError := Option String

/-- Text of `err.Error()`; only ever called on a non-nil error in the code. -/
def GoError.Error : GoError → String
  | some msg => msg
  | none => ""

/-! ## Package `model`: the record types the client reads and writes

Only `appconfig.go` of the package is available; the records below carry the
fields that `cli.go` reads or writes, with the names used there. -/

namespace model

/-- One entry of the body of a deploy request (`model.HostQuery`). -/
structure HostQuery where
  Name : String
  Reboot : Bool
  deriving DecidableEq, Repr

/-- Body of a deploy request (`model.HostsQuery`); `Hosts` is a slice of pointers. -/
structure HostsQuery where
  Hosts : List (Option HostQuery)
  deriving DecidableEq, Repr

/-- One entry of a deploy response (`model.HostResponse`). -/
structure HostResponse where
  Name : String
  Rebooted : String
  deriving DecidableEq, Repr

/-- Body of a deploy response (`model.HostsResponse`). -/
structure HostsResponse where
  Hosts : List HostResponse := []
  deriving DecidableEq, Repr

/-- The part of `model.Configuration` read by `host list`. -/
structure Configuration where
  Name : String
  deriving DecidableEq, Repr

/-- The part of `model.IPMI` read by `host list`. -/
structure IPMI where
  MACAddress : String
  Hostname : String
  deriving DecidableEq, Repr

/-- The part of `model.Management` read by `host list`. -/
structure Management where
  MacAddress : String
  IPAddress : String
  deriving DecidableEq, Repr

/-- The part of `model.Host` read by `host list`. -/
structure Host where
  Name : String
  Configuration : Option Configuration
  MACAddresses : List String
  IPMI : Option IPMI
  Management : Option Management
  PowerState : String
  deriving DecidableEq, Repr

end model

/-! ## `tablewriter`: the data a table holds when it is rendered -/

/-- State of a `tablewriter.Table`: header, auto-wrap flag and appended rows. -/
structure Table where
  header : List String := []
  autoWrapText : Bool := true
  rows : List (List String) := []
  deriving DecidableEq, Repr

/-- The table made by `tablewriter.NewWriter(os.Stdout)`. -/
def NewWriter : Table := {}

/-- The method `table.SetHeader(keys)`. -/
def Table.SetHeader (t : Table) (keys : List String) : Table :=
  { t with header := keys }

/-- The method `table.SetAutoWrapText(b)`. -/
def Table.SetAutoWrapText (t : Table) (b : Bool) : Table :=
  { t with autoWrapText := b }

/-- The method `table.Append(row)`: the row is added after the rows already present. -/
def Table.Append (t : Table) (row : List String) : Table :=
  { t with rows := t.rows ++ [row] }

/-! ## Effects of an action -/

/-- Payload handed to the HTTP helper as `data`. -/
inductive Payload where
  | null
  | hostsQuery (q : model.HostsQuery)
  deriving DecidableEq, Repr

/-- One call of the HTTP helper as seen from the client. -/
structure Call where
  method : String
  baseURL : String
  path : String
  data : Payload
  deriving DecidableEq, Repr

/-- What the HTTP helper hands back: the two return values and the content of
the response holder after the call. -/
structure Reply (H : Type) where
  statusCode : Int
  err : GoError
  holder : H

/-- Something written to `os.Stdout`. -/
inductive Output where
  | text (s : String)
  | table (t : Table)
  deriving DecidableEq, Repr

/-- Observable effects accumulated by an action. -/
structure World where
  stdout : List Output := []
  calls : List Call := []
  deriving DecidableEq, Repr

/-- Result of running an action: it returned, or `cli.Exit(code)` ended it. -/
inductive Res (α : Type) where
  | done (a : α) (w : World)
  | exit (code : Int) (w : World)

/-- An action of the command-line client. -/
def Cmd (α : Type) : Type := World → Res α

/-- Sequencing: nothing after a `cli.Exit` runs. -/
def Cmd.bind {α β : Type} (m : Cmd α) (f : α → Cmd β) : Cmd β := fun w =>
  match m w with
  | .done a w1 => f a w1
  | .exit code w1 => .exit code w1

instance : Monad Cmd where
  pure a := fun w => .done a w
  bind := Cmd.bind

/-- The call `cli.Exit(code)`: leaves the action with the given exit code. -/
def cliExit {α : Type} (code : Int) : Cmd α := fun w => .exit code w

/-- The method `table.Render()`: the table is written to `os.Stdout`. -/
def Table.Render (t : Table) : Cmd Unit := fun w =>
  .done () { w with stdout := w.stdout ++ [Output.table t] }

/-- The call `os.Stdout.WriteString(s)`. -/
def WriteString (s : String) : Cmd Unit := fun w =>
  .done () { w with stdout := w.stdout ++ [Output.text s] }

/-- The call `http.Request(method, baseURL, path, data, holder)` made by the client.
The function is not among the available sources (they hold `HTTP`, of the same
signature), so its outcome is left to the environment `net`: the call is recorded
and the reply is the one `net` gives for it. -/
def Request {H : Type} (net : Call → Reply H) (method baseURL path : String)
    (data : Payload) : Cmd (Reply H) := fun w =>
  let c : Call := { method := method, baseURL := baseURL, path := path, data := data }
  .done (net c) { w with calls := w.calls ++ [c] }

/-- Exit code of a finished action: `none` when it returned normally. -/
def Res.exitCode {α : Type} : Res α → Option Int
  | .done _ _ => none
  | .exit code _ => some code

/-- Effects of a finished action. -/
def Res.world {α : Type} : Res α → World
  | .done _ w => w
  | .exit _ w => w

/-- Tables written to standard output, in order. -/
def World.tables (w : World) : List Table :=
  w.stdout.filterMap (fun o => match o with
    | Output.table t => some t
    | Output.text _ => none)

/-- Run an action from the empty world. -/
def Cmd.run {α : Type} (m : Cmd α) : Res α := m {}

/-! ## `config deploy` (cli.go, lines 99-146) -/

/-- The loop `for i, h := range *hostnames` filling `hosts[i]`; `i` is the index
of the first name of the list still to be visited. -/
def deployFill (now : Bool) :
    List String → Nat → List (Option model.HostQuery) → List (Option model.HostQuery)
  | [], _, hosts => hosts
  | h :: rest, i, hosts =>
      deployFill now rest (i + 1) (hosts.set i (some { Name := h, Reboot := now }))

/-- The slice `hosts` once the loop is done, from `make([]*model.HostQuery, len)`. -/
def deployHosts (now : Bool) (hostnames : List String) : List (Option model.HostQuery) :=
  deployFill now hostnames 0 (List.replicate hostnames.length none)

/-- Action of `config deploy [-n] CONFIG HOSTNAMES...`. -/
def configDeployAction (net : Call → Reply model.HostsResponse) (serverURL : String)
    (now : Bool) (config : String) (hostnames : List String) : Cmd Unit := do
  let hosts := deployHosts now hostnames
  let hostsQuery : model.HostsQuery := { Hosts := hosts }
  let r ← Request net "PUT" serverURL ("/v1/configurations/" ++ config ++ "/deploy")
    (Payload.hostsQuery hostsQuery)
  let resp := r.holder
  if r.err ≠ none ∨ r.statusCode ≠ 200 then
    cliExit 1
  let table := NewWriter
  let table := table.SetAutoWrapText false
  let table := table.SetHeader ["Name", "Configuration", "Rebooted"]
  let table := resp.Hosts.foldl (fun t h => t.Append [h.Name, config, h.Rebooted]) table
  table.Render

/-! ## `host list` (cli.go, lines 150-200) -/

/-- The loop `for i := 0; i < len(h.MACAddresses); i++` writing into the buffer
`macAddresses`; `i` is the index of the first address still to be written. -/
def writeMACs : List String → Nat → String → String
  | [], _, buf => buf
  | m :: rest, i, buf =>
      let buf := if i ≠ 0 then buf ++ " | " else buf
      writeMACs rest (i + 1) (buf ++ m)

/-- The row appended for one host by the body of `for _, h := range *hosts`. -/
def hostRow (h : model.Host) : List String :=
  let configuration := match h.Configuration with
    | some c => c.Name
    | none => ""
  let macAddresses := writeMACs h.MACAddresses 0 ""
  let rmMAC := ""
  let rmIP := ""
  let (rmMAC, rmIP) := match h.IPMI with
    | some ipmi => (ipmi.MACAddress, ipmi.Hostname)
    | none => (rmMAC, rmIP)
  let (rmMAC, rmIP) := match h.Management with
    | some mgmt => (mgmt.MacAddress, mgmt.IPAddress)
    | none => (rmMAC, rmIP)
  [h.Name, configuration, macAddresses, rmMAC, rmIP, h.PowerState]

/-- Action of `host list`. -/
def hostListAction (net : Call → Reply (List model.Host)) (serverURL : String) :
    Cmd Unit := do
  let r ← Request net "GET" serverURL "/v1/hosts" Payload.null
  let hosts := r.holder
  if r.err ≠ none then
    WriteString ("Error : " ++ r.err.Error)
  if r.err ≠ none ∨ r.statusCode ≠ 200 then
    WriteString "Error..."
    cliExit 1
  let table := NewWriter
  let table := table.SetHeader ["Name", "Configuration", "MAC", "MGMT MAC", "MGMT IP", "Power State"]
  let table := table.SetAutoWrapText false
  let table := hosts.foldl (fun t h => t.Append (hostRow h)) table
  table.Render

/-! ## `host reboot`, `host on`, `host off` (cli.go, lines 201-284) -/

/-- Action of `host reboot HOSTNAME`. -/
def hostRebootAction (net : Call → Reply Unit) (serverURL hostname : String) : Cmd Unit := do
  let r ← Request net "PATCH" serverURL ("/v1/hosts/" ++ hostname ++ "/reboot") Payload.null
  let table := NewWriter
  let table := table.SetAutoWrapText false
  let table := table.SetHeader ["Name", "Reboot"]
  if r.err ≠ none ∨ r.statusCode ≠ 204 then
    let table := table.Append [hostname, "ERROR"]
    table.Render
    cliExit 1
  else
    let table := table.Append [hostname, "OK"]
    table.Render

/-- Action of `host on HOSTNAME`. -/
def hostOnAction (net : Call → Reply Unit) (serverURL hostname : String) : Cmd Unit := do
  let r ← Request net "PATCH" serverURL ("/v1/hosts/" ++ hostname ++ "/on") Payload.null
  let table := NewWriter
  let table := table.SetAutoWrapText false
  let table := table.SetHeader ["Name", "On"]
  if r.err ≠ none ∨ r.statusCode ≠ 204 then
    let table := table.Append [hostname, "ERROR"]
    table.Render
    cliExit 1
  else
    let table := table.Append [hostname, "OK"]
    table.Render

/-- Action of `host off HOSTNAME`. -/
def hostOffAction (net : Call → Reply Unit) (serverURL hostname : String) : Cmd Unit := do
  let r ← Request net "PATCH" serverURL ("/v1/hosts/" ++ hostname ++ "/off") Payload.null
  let table := NewWriter
  let table := table.SetAutoWrapText false
  let table := table.SetHeader ["Name", "Off"]
  if r.err ≠ none ∨ r.statusCode ≠ 204 then
    let table := table.Append [hostname, "ERROR"]
    table.Render
    cliExit 1
  else
    let table := table.Append [hostname, "OK"]
    table.Render

/-! ## `host refresh` (cli.go, lines 285-304) -/

/-- Action of `host refresh`. -/
def hostRefreshAction (net : Call → Reply Unit) (serverURL : String) : Cmd Unit := do
  let r ← Request net "PATCH" serverURL "/v1/refresh" Payload.null
  let mut table := NewWriter
  table := table.SetHeader ["Refresh"]
  table := table.SetAutoWrapText false
  if r.err ≠ none then
    table := table.Append ["ERROR : " ++ r.err.Error]
  if r.err ≠ none ∨ r.statusCode ≠ 204 then
    table := table.Append ["ERROR"]
    cliExit 1
  table := table.Append ["OK"]
  table.Render

/-! ## Expected values used in the statements -/

/-- The call that `config deploy` is expected to hand to the HTTP helper. -/
def deployCall (serverURL : String) (now : Bool) (config : String) (hostnames : List String) :
    Call :=
  { method := "PUT", baseURL := serverURL,
    path := "/v1/configurations/" ++ config ++ "/deploy",
    data := Payload.hostsQuery
      { Hosts := hostnames.map (fun h => some { Name := h, Reboot := now }) } }

/-- What a single-host power command is expected to do: one PATCH on "/v1/hosts/" + h + suffix, one table with header
["Name", header] and the single row [h, "OK"] when the reply is (204, nil), the
single row [h, "ERROR"] and exit code 1 otherwise. -/
def singleHostSpec (action : (Call → Reply Unit) → String → String → Cmd Unit)
    (suffix header : String) : Prop :=
  ∀ (net : Call → Reply Unit) (serverURL h : String),
    (action net serverURL h).run =
      if (net ⟨"PATCH", serverURL, "/v1/hosts/" ++ h ++ suffix, Payload.null⟩).err = none ∧
          (net ⟨"PATCH", serverURL, "/v1/hosts/" ++ h ++ suffix, Payload.null⟩).statusCode = 204
      then
        Res.done ()
          { calls := [⟨"PATCH", serverURL, "/v1/hosts/" ++ h ++ suffix, Payload.null⟩],
            stdout := [Output.table
              { header := ["Name", header], autoWrapText := false, rows := [[h, "OK"]] }] }
      else
        Res.exit 1
          { calls := [⟨"PATCH", serverURL, "/v1/hosts/" ++ h ++ suffix, Payload.null⟩],
            stdout := [Output.table
              { header := ["Name", header], autoWrapText := false, rows := [[h, "ERROR"]] }] }

/-- A host whose IPMI and Management records are both set, with different values. -/
def hostBothEndpoints : model.Host :=
  { Name := "node1", Configuration := none, MACAddresses := [],
    IPMI := some { MACAddress := "aa:aa:aa:aa:aa:aa", Hostname := "10.0.0.1" },
    Management := some { MacAddress := "bb:bb:bb:bb:bb:bb", IPAddress := "10.0.0.2" },
    PowerState := "On" }

/-! ## Package `http` (common/http/http.go): the function `HTTP` -/

namespace http

/-- A `time.Duration`: a signed count of nanoseconds. -/
abbrev Duration := Int

/-- The constant `time.Second`. -/
def Second : Duration := 1000000000

/-- A `net.Dialer` as far as the code sets it. -/
structure Dialer where
  Timeout : Duration
  deriving DecidableEq, Repr

/-- An `http.Transport` as far as the code sets it. `addr` is the identity of
the object allocated by `&http.Transport{...}`; `Dial` is the dialer whose `Dial`
method the transport uses. -/
structure Transport where
  addr : Nat
  Dial : Dialer
  TLSHandshakeTimeout : Duration
  deriving DecidableEq, Repr

/-- An `http.Client` as far as the code sets it. -/
structure Client where
  Transport : Transport
  Timeout : Duration
  deriving DecidableEq, Repr

/-- An outgoing `http.Request`. -/
structure Request where
  Method : String
  URL : String
  Body : String
  Close : Bool
  Header : List (String × String)
  deriving DecidableEq, Repr

/-- An `http.Response` as far as the code reads it. -/
structure Response where
  StatusCode : Int
  Body : String
  deriving DecidableEq, Repr

/-- The method `req.Header.Set(key, value)`: the value replaces any value stored for the key. -/
def HeaderSet (hd : List (String × String)) (key value : String) : List (String × String) :=
  hd.filter (fun kv => kv.1 ≠ key) ++ [(key, value)]

/-- What `HTTP` relies on without defining it: the JSON codec, the checks of
`http.NewRequest`, and the network reached through `client.Do`. -/
structure Env (D H : Type) where
  /-- Bytes that `json.NewEncoder(b).Encode(data)` leaves in the buffer. -/
  encode : D → String
  /-- The error of `http.NewRequest(method, url, b)`, `none` when the request is built. -/
  checkRequest : String → String → GoError
  /-- The outcome of `client.Do(req)`. -/
  roundTrip : Client → Request → Except String Response
  /-- The outcome of `json.NewDecoder(body).Decode(holder)`: the holder afterwards and
  the error of the decoder. -/
  decode : String → H → H × GoError

/-- What a call of `HTTP` does besides returning. -/
inductive Event where
  | log (msg : String)
  | send (client : Client) (req : Request)
  | decodeBody (body : String)
  | closeBody
  deriving DecidableEq, Repr

/-- State threaded through calls of `HTTP`: the next free object identity and the
events so far. -/
structure State where
  next : Nat := 0
  trace : List Event := []
  deriving DecidableEq, Repr

/-- Record an event. -/
def State.emit (s : State) (e : Event) : State :=
  { s with trace := s.trace ++ [e] }

/-- Allocate one object: its identity and the state afterwards. -/
def State.alloc (s : State) : Nat × State :=
  (s.next, { s with next := s.next + 1 })

/-- The two values returned by `HTTP`, the response holder afterwards, and the state. -/
structure Result (H : Type) where
  status : Int
  err : GoError
  holder : Option H
  state : State

/-- The function `HTTP(method, baseURL, path, data, responseHolder)`. A `nil`
`responseHolder` is `none`. -/
def HTTP {D H : Type} (env : Env D H) (method baseURL path : String) (data : D)
    (responseHolder : Option H) (s : State) : Result H :=
  -- b := new(bytes.Buffer); json.NewEncoder(b).Encode(data)
  let (_, s) := s.alloc
  let b := env.encode data
  let url := baseURL ++ path
  let s := s.emit (Event.log (" -> Sending " ++ method ++ " request on " ++ url))
  match env.checkRequest method url with
  | some err => { status := -1, err := some err, holder := responseHolder, state := s }
  | none =>
    let req : Request := { Method := method, URL := url, Body := b, Close := false, Header := [] }
    let req := { req with Close := true }
    let req := { req with Header := HeaderSet req.Header "Content-Type" "application/json" }
    let (addr, s) := s.alloc
    let transport : Transport :=
      { addr := addr, Dial := { Timeout := 5 * Second }, TLSHandshakeTimeout := 5 * Second }
    let client : Client := { Transport := transport, Timeout := 5 * Second }
    let s := s.emit (Event.send client req)
    match env.roundTrip client req with
    | .error err => { status := 0, err := some err, holder := responseHolder, state := s }
    | .ok resp =>
      let (holder, s) := match responseHolder with
        | some h => (some (env.decode resp.Body h).1, s.emit (Event.decodeBody resp.Body))
        | none => (none, s)
      let s := s.emit (Event.log (" -> Response code " ++ toString resp.StatusCode))
      -- defer resp.Body.Close()
      let s := s.emit Event.closeBody
      { status := resp.StatusCode, err := none, holder := holder, state := s }

/-- Response bodies read by the decoder in a trace, in order. -/
def decodes (tr : List Event) : List String :=
  tr.filterMap (fun e => match e with
    | Event.decodeBody b => some b
    | _ => none)

/-- The client built by a call of `HTTP` whose transport gets identity `addr`. -/
def boundedClient (addr : Nat) : Client :=
  { Transport := { addr := addr, Dial := { Timeout := 5000000000 },
                   TLSHandshakeTimeout := 5000000000 },
    Timeout := 5000000000 }

/-- The request `HTTP` hands to `client.Do`. -/
def builtRequest {D H : Type} (env : Env D H) (method baseURL path : String) (data : D) :
    Request :=
  { Method := method, URL := baseURL ++ path, Body := env.encode data, Close := true,
    Header := [("Content-Type", "application/json")] }

end http

/-! ## Deployment orchestrator

The server side (host registry, configuration catalog, power backend adapter,
orchestrator) is not part of the available sources; it is modelled from the
specification, sections 3, 4.1 to 4.4 and 7. -/

namespace Orchestrator

/-- Modelled from the spec: the `managementEndpoint` variant of a Host (section 3);
the type is missing from the sources. -/
inductive ManagementEndpoint where
  | VendorRemote (macAddress address : String)
  | GenericAgent (macAddress address : String)
  | None
  deriving DecidableEq, Repr

/-- Modelled from the spec: the cached `powerState` of a Host (section 3); the type
is missing from the sources. -/
inductive PowerState where
  | On
  | Off
  | Unknown
  deriving DecidableEq, Repr

/-- Modelled from the spec: a Configuration (section 3): name, bootloader reference,
rendered content; the type is missing from the sources. -/
structure Configuration where
  name : String
  bootloader : String
  content : String
  deriving DecidableEq, Repr

/-- Modelled from the spec: a Host record (section 3); the type is missing from the
sources. -/
structure Host where
  macAddresses : List String
  name : String
  configuration : Option Configuration
  managementEndpoint : ManagementEndpoint
  powerState : PowerState
  deriving DecidableEq, Repr

/-- Modelled from the spec: the reason codes of section 7 that a per-host outcome can
carry; the type is missing from the sources. -/
inductive Reason where
  | HostUnknown
  | NoManagementEndpoint
  | BackendTimeout
  | BackendRefused
  | BackendProtocolError
  deriving DecidableEq, Repr

/-- Modelled from the spec: the outcome of one entry of a DeploymentResult
(section 3); the type is missing from the sources. -/
inductive Outcome where
  | Rebooted
  | ConfigApplied
  | Failed (reason : Reason)
  deriving DecidableEq, Repr

/-- Modelled from the spec: the batch-fatal error of `deploy` (section 7); the type is
missing from the sources. -/
inductive DeployError where
  | ConfigurationNotFound
  deriving DecidableEq, Repr

/-- Modelled from the spec: the errors a backend call can end with (section 4.3); the
type is missing from the sources. -/
inductive BackendError where
  | Timeout
  | Refused
  | ProtocolError
  deriving DecidableEq, Repr

/-- Modelled from the spec: the Host Registry, a catalog of host records addressable
by name (section 4.1); the registry is missing from the sources. -/
abbrev Registry := List Host

/-- Modelled from the spec: the Configuration Catalog (section 4.2); the catalog is
missing from the sources. -/
abbrev Catalog := List Configuration

/-- Modelled from the spec: the network side of a reboot on a management endpoint,
`none` when the backend accepts it; the backends are missing from the sources. -/
abbrev Backend := Host → Option BackendError

/-- Modelled from the spec: `lookup(name) -> Host | NotFound` of the Host Registry
(section 4.1), missing from the sources. -/
def lookup (reg : Registry) (name : String) : Option Host :=
  reg.find? (fun h => h.name == name)

/-- Modelled from the spec: `setConfiguration(name, configurationRef)` of the Host
Registry (section 4.1), missing from the sources; a name that is not found leaves
the registry as it is. -/
def setConfiguration (reg : Registry) (name : String) (ref : Option Configuration) :
    Registry :=
  reg.map (fun h => if h.name == name then { h with configuration := ref } else h)

/-- Modelled from the spec: `resolve(name) -> Configuration | NotFound` of the
Configuration Catalog (section 4.2), missing from the sources. -/
def resolve (cat : Catalog) (name : String) : Option Configuration :=
  cat.find? (fun c => c.name == name)

/-- Modelled from the spec: the reason code reported for a backend error
(sections 4.3 and 7); missing from the sources. -/
def BackendError.reason : BackendError → Reason
  | .Timeout => Reason.BackendTimeout
  | .Refused => Reason.BackendRefused
  | .ProtocolError => Reason.BackendProtocolError

/-- Modelled from the spec: `reboot(host) -> ok | Error` of the Power Backend Adapter
(section 4.3), missing from the sources: a host whose endpoint is `None` fails
with `NoManagementEndpoint` without a backend call; otherwise the backend decides.
`none` is `ok`. -/
def reboot (backend : Backend) (host : Host) : Option Reason :=
  match host.managementEndpoint with
  | ManagementEndpoint.None => some Reason.NoManagementEndpoint
  | _ => (backend host).map BackendError.reason

/-- Modelled from the spec: step 5 of the algorithm of section 4.4 for one request
entry, given the host found in step 2; the orchestrator is missing from the sources. -/
def entryOutcome (backend : Backend) (found : Option Host) (rebootRequested : Bool) :
    Outcome :=
  match found with
  | none => Outcome.Failed Reason.HostUnknown
  | some host =>
    if rebootRequested then
      match reboot backend host with
      | none => Outcome.Rebooted
      | some reason => Outcome.Failed reason
    else Outcome.ConfigApplied

/-- Modelled from the spec: step 2 of the algorithm of section 4.4, every request
entry is looked up by name, independently of the others; the orchestrator is
missing from the sources. -/
def resolveAll (reg : Registry) (requests : List (String × Bool)) :
    List (String × Bool × Option Host) :=
  requests.map (fun rq => (rq.1, rq.2, lookup reg rq.1))

/-- Modelled from the spec: step 3 of the algorithm of section 4.4, the configuration
is set on every host that step 2 found; the orchestrator is missing from the
sources. -/
def assignAll (cfg : Configuration) (reg : Registry) :
    List (String × Bool × Option Host) → Registry
  | [] => reg
  | (name, _, found) :: rest =>
    match found with
    | none => assignAll cfg reg rest
    | some _ => assignAll cfg (setConfiguration reg name (some cfg)) rest

/-- Modelled from the spec: `deploy(configurationName, requests)` of the Deployment
Orchestrator (section 4.4), missing from the sources. Step 1 resolves the
configuration and fails the whole call when it is unknown; step 2 looks every name
up; step 3 assigns the configuration to the hosts found; steps 4 and 5 give every
entry its own outcome, in request order (the reboots of step 4 run concurrently
and independently of one another: each contributes the verdict of its own host).
The registry afterwards is returned with the result. -/
def deploy (cat : Catalog) (backend : Backend) (reg : Registry)
    (configurationName : String) (requests : List (String × Bool)) :
    Except DeployError (Registry × List (String × Outcome)) :=
  match resolve cat configurationName with
  | none => Except.error DeployError.ConfigurationNotFound
  | some cfg =>
    let found := resolveAll reg requests
    let reg1 := assignAll cfg reg found
    let result := found.map (fun e => (e.1, entryOutcome backend e.2.2 e.2.1))
    Except.ok (reg1, result)

/-- Host `A` of the scenario of section 8. -/
def hostA : Host :=
  { macAddresses := ["aa:aa"], name := "A", configuration := none,
    managementEndpoint := ManagementEndpoint.GenericAgent "aa:aa" "10.0.0.1",
    powerState := PowerState.Off }

/-- Host `B` of the scenario of section 8. -/
def hostB : Host :=
  { macAddresses := ["bb:bb"], name := "B", configuration := none,
    managementEndpoint := ManagementEndpoint.None, powerState := PowerState.Unknown }

/-- Configuration `prod` of the scenario of section 8. -/
def prod : Configuration :=
  { name := "prod", bootloader := "pxelinux", content := "" }

/-- A backend on which every reboot succeeds. -/
def backendOk : Backend := fun _ => none

end Orchestrator


/-! ## Properties of the command-line actions -/

theorem bind_eq {α β : Type} (m : Cmd α) (f : α → Cmd β) : (m >>= f) = Cmd.bind m f := rfl

theorem pure_eq {α : Type} (a : α) : (pure a : Cmd α) = fun w => Res.done a w := rfl

theorem deployFill_append (now : Bool) (hs : List String) :
    ∀ pre : List (Option model.HostQuery),
      deployFill now hs pre.length (pre ++ List.replicate hs.length none)
        = pre ++ hs.map (fun h => some { Name := h, Reboot := now }) := by
  induction hs with
  | nil => intro pre; simp [deployFill]
  | cons h rest ih =>
    intro pre
    have := ih (pre ++ [some { Name := h, Reboot := now }])
    simp [deployFill, List.replicate_succ] at this ⊢
    exact this

theorem deployHosts_eq (now : Bool) (hs : List String) :
    deployHosts now hs = hs.map (fun h => some { Name := h, Reboot := now }) := by
  have := deployFill_append now hs []
  simpa [deployHosts] using this

theorem foldl_Append (f : α → List String) (l : List α) :
    ∀ t : Table, l.foldl (fun t h => t.Append (f h)) t = { t with rows := t.rows ++ l.map f } := by
  induction l with
  | nil => intro t; simp
  | cons a l ih =>
    intro t
    rw [List.foldl_cons, ih]
    simp [Table.Append]

theorem configDeploy_run (net : Call → Reply model.HostsResponse) (serverURL : String)
    (now : Bool) (config : String) (hostnames : List String) :
    (configDeployAction net serverURL now config hostnames).run =
      if (net (deployCall serverURL now config hostnames)).err = none ∧
          (net (deployCall serverURL now config hostnames)).statusCode = 200 then
        Res.done () { calls := [deployCall serverURL now config hostnames],
                      stdout := [Output.table
                        { header := ["Name", "Configuration", "Rebooted"],
                          autoWrapText := false,
                          rows := (net (deployCall serverURL now config hostnames)).holder.Hosts.map
                            (fun h => [h.Name, config, h.Rebooted]) }] }
      else
        Res.exit 1 { calls := [deployCall serverURL now config hostnames], stdout := [] } := by
  simp only [configDeployAction, Cmd.run, bind_eq, Cmd.bind, Request, deployHosts_eq,
    foldl_Append, deployCall]
  split_ifs with h1 h2 h2
  all_goals simp_all [cliExit, pure_eq, Cmd.bind, Table.Render, NewWriter, Table.SetHeader,
    Table.SetAutoWrapText]

/-- C1: for every list of host names and every value of the `--now` flag, the body
built by `config deploy` has one entry per host name, in the same order, the i-th
entry carrying the i-th name and the flag; it is sent once, with method PUT, to the
path "/v1/configurations/" + CONFIG + "/deploy". -/
theorem configDeploy_request (net : Call → Reply model.HostsResponse) (serverURL : String)
    (now : Bool) (config : String) (hostnames : List String) :
    (deployHosts now hostnames).length = hostnames.length ∧
    (∀ i : Nat, (deployHosts now hostnames)[i]? =
        (hostnames[i]?).map (fun h => some { Name := h, Reboot := now })) ∧
    ((configDeployAction net serverURL now config hostnames).run).world.calls =
      [{ method := "PUT", baseURL := serverURL,
         path := "/v1/configurations/" ++ config ++ "/deploy",
         data := Payload.hostsQuery { Hosts := deployHosts now hostnames } }] := by
  refine ⟨by simp [deployHosts_eq], fun i => by simp [deployHosts_eq], ?_⟩
  rw [configDeploy_run]
  split_ifs <;> simp [Res.world, deployCall, deployHosts_eq]

/-- C2: when the deploy request returns no error and status 200, `config deploy`
prints exactly one table and returns normally; the table has one row per host of
the response, in the order of the response, the i-th row being
[name of the i-th host, CONFIG, outcome string of the i-th host]. -/
theorem configDeploy_rows (net : Call → Reply model.HostsResponse) (serverURL : String)
    (now : Bool) (config : String) (hostnames : List String)
    (herr : (net (deployCall serverURL now config hostnames)).err = none)
    (hcode : (net (deployCall serverURL now config hostnames)).statusCode = 200) :
    ∃ t : Table,
      ((configDeployAction net serverURL now config hostnames).run).world.stdout
        = [Output.table t] ∧
      ((configDeployAction net serverURL now config hostnames).run).exitCode = none ∧
      t.header = ["Name", "Configuration", "Rebooted"] ∧
      t.rows.length = (net (deployCall serverURL now config hostnames)).holder.Hosts.length ∧
      ∀ i : Nat, t.rows[i]? =
        ((net (deployCall serverURL now config hostnames)).holder.Hosts[i]?).map
          (fun h => [h.Name, config, h.Rebooted]) := by
  rw [configDeploy_run, if_pos ⟨herr, hcode⟩]
  exact ⟨_, rfl, rfl, rfl, by simp, fun i => by simp⟩

/-- Witness of C2: a response with two hosts, one rebooted and one not. -/
theorem configDeploy_rows_witness :
    ∃ t : Table,
      ((configDeployAction
          (fun _ => { statusCode := 200, err := none,
                      holder := { Hosts := [⟨"h1", "Y"⟩, ⟨"h2", "N"⟩] } })
          "http://localhost:3478" true "ubuntu" ["h1", "h2"]).run).world.stdout
        = [Output.table t] ∧
      ((configDeployAction
          (fun _ => { statusCode := 200, err := none,
                      holder := { Hosts := [⟨"h1", "Y"⟩, ⟨"h2", "N"⟩] } })
          "http://localhost:3478" true "ubuntu" ["h1", "h2"]).run).exitCode = none ∧
      t.header = ["Name", "Configuration", "Rebooted"] ∧
      t.rows.length = 2 ∧
      ∀ i : Nat, t.rows[i]? =
        (([⟨"h1", "Y"⟩, ⟨"h2", "N"⟩] : List model.HostResponse)[i]?).map
          (fun h => [h.Name, "ubuntu", h.Rebooted]) :=
  configDeploy_rows
    (fun _ => { statusCode := 200, err := none,
                holder := { Hosts := [⟨"h1", "Y"⟩, ⟨"h2", "N"⟩] } })
    "http://localhost:3478" true "ubuntu" ["h1", "h2"] rfl rfl

/-- C3: `config deploy` prints its table if and only if the request returned no error
and status exactly 200; in every other case it exits with code 1 and writes nothing,
whatever host list the response holder carries. -/
theorem configDeploy_render_iff (net : Call → Reply model.HostsResponse) (serverURL : String)
    (now : Bool) (config : String) (hostnames : List String) :
    (((configDeployAction net serverURL now config hostnames).run).world.tables.length = 1 ↔
      ((net (deployCall serverURL now config hostnames)).err = none ∧
        (net (deployCall serverURL now config hostnames)).statusCode = 200)) ∧
    ((configDeployAction net serverURL now config hostnames).run).exitCode =
      (if (net (deployCall serverURL now config hostnames)).err = none ∧
          (net (deployCall serverURL now config hostnames)).statusCode = 200
        then none else some 1) ∧
    ((configDeployAction net serverURL now config hostnames).run).world.stdout =
      (if (net (deployCall serverURL now config hostnames)).err = none ∧
          (net (deployCall serverURL now config hostnames)).statusCode = 200
        then [Output.table
                { header := ["Name", "Configuration", "Rebooted"], autoWrapText := false,
                  rows := (net (deployCall serverURL now config hostnames)).holder.Hosts.map
                    (fun h => [h.Name, config, h.Rebooted]) }]
        else []) := by
  rw [configDeploy_run]
  split_ifs with h <;> simp [Res.world, Res.exitCode, World.tables, h]

/-- C4: each of `host reboot`, `host on` and `host off` renders exactly one row,
[h, "OK"] exactly when the error is nil and the status is 204, and [h, "ERROR"]
followed by exit code 1 otherwise; the three differ only in the path suffix and in
the second header. A reply (200, nil) is reported as ERROR. -/
theorem singleHost_actions :
    singleHostSpec hostRebootAction "/reboot" "Reboot" ∧
    singleHostSpec hostOnAction "/on" "On" ∧
    singleHostSpec hostOffAction "/off" "Off" ∧
    (hostRebootAction (fun _ => { statusCode := 200, err := none, holder := () })
        "http://localhost:3478" "h1").run =
      Res.exit 1
        { calls := [⟨"PATCH", "http://localhost:3478", "/v1/hosts/h1/reboot", Payload.null⟩],
          stdout := [Output.table
            { header := ["Name", "Reboot"], autoWrapText := false,
              rows := [["h1", "ERROR"]] }] } := by
  refine ⟨?_, ?_, ?_, ?_⟩
  · intro net serverURL h
    simp only [hostRebootAction, Cmd.run, bind_eq, Cmd.bind, Request]
    split_ifs with h1 h2 h2
    all_goals simp_all [cliExit, pure_eq, Cmd.bind, Table.Render, NewWriter, Table.SetHeader,
      Table.SetAutoWrapText, Table.Append]
  · intro net serverURL h
    simp only [hostOnAction, Cmd.run, bind_eq, Cmd.bind, Request]
    split_ifs with h1 h2 h2
    all_goals simp_all [cliExit, pure_eq, Cmd.bind, Table.Render, NewWriter, Table.SetHeader,
      Table.SetAutoWrapText, Table.Append]
  · intro net serverURL h
    simp only [hostOffAction, Cmd.run, bind_eq, Cmd.bind, Request]
    split_ifs with h1 h2 h2
    all_goals simp_all [cliExit, pure_eq, Cmd.bind, Table.Render, NewWriter, Table.SetHeader,
      Table.SetAutoWrapText, Table.Append]
  · rfl

/-- C10: `host refresh` renders a table, whose only row is ["OK"], exactly when the
error is nil and the status is 204; in every other case it exits with code 1 and
nothing is written, so the ERROR rows appended before the exit are never printed. -/
theorem hostRefresh_outcome (net : Call → Reply Unit) (serverURL : String) :
    (hostRefreshAction net serverURL).run =
      if (net ⟨"PATCH", serverURL, "/v1/refresh", Payload.null⟩).err = none ∧
          (net ⟨"PATCH", serverURL, "/v1/refresh", Payload.null⟩).statusCode = 204
      then
        Res.done ()
          { calls := [⟨"PATCH", serverURL, "/v1/refresh", Payload.null⟩],
            stdout := [Output.table
              { header := ["Refresh"], autoWrapText := false, rows := [["OK"]] }] }
      else
        Res.exit 1
          { calls := [⟨"PATCH", serverURL, "/v1/refresh", Payload.null⟩], stdout := [] } := by
  simp only [hostRefreshAction, Cmd.run, bind_eq, Cmd.bind, Request]
  split_ifs with h1 h2 h2
  all_goals simp_all [cliExit, pure_eq, Cmd.bind, Table.Render, NewWriter, Table.SetHeader,
    Table.SetAutoWrapText, Table.Append]

theorem hostList_run (net : Call → Reply (List model.Host)) (serverURL : String) :
    (hostListAction net serverURL).run =
      if (net ⟨"GET", serverURL, "/v1/hosts", Payload.null⟩).err = none ∧
          (net ⟨"GET", serverURL, "/v1/hosts", Payload.null⟩).statusCode = 200
      then
        Res.done ()
          { calls := [⟨"GET", serverURL, "/v1/hosts", Payload.null⟩],
            stdout := [Output.table
              { header := ["Name", "Configuration", "MAC", "MGMT MAC", "MGMT IP", "Power State"],
                autoWrapText := false,
                rows := (net ⟨"GET", serverURL, "/v1/hosts", Payload.null⟩).holder.map hostRow }] }
      else
        Res.exit 1
          { calls := [⟨"GET", serverURL, "/v1/hosts", Payload.null⟩],
            stdout :=
              (match (net ⟨"GET", serverURL, "/v1/hosts", Payload.null⟩).err with
                | some msg => [Output.text ("Error : " ++ msg)]
                | none => []) ++ [Output.text "Error..."] } := by
  simp only [hostListAction, Cmd.run, bind_eq, Cmd.bind, Request, foldl_Append]
  cases herr : (net ⟨"GET", serverURL, "/v1/hosts", Payload.null⟩).err with
  | none =>
    by_cases hc : (net ⟨"GET", serverURL, "/v1/hosts", Payload.null⟩).statusCode = 200
    all_goals simp [hc, cliExit, pure_eq, Cmd.bind, Table.Render, NewWriter, Table.SetHeader,
      Table.SetAutoWrapText, WriteString]
  | some msg =>
    simp [cliExit, pure_eq, Cmd.bind, Table.Render, NewWriter, Table.SetHeader,
      Table.SetAutoWrapText, WriteString, GoError.Error]

theorem writeMACs_succ (rest : List String) :
    ∀ (i : Nat) (buf : String),
      writeMACs rest (i + 1) buf = String.intercalate.go buf " | " rest := by
  induction rest with
  | nil => intro i buf; simp [writeMACs, String.intercalate.go]
  | cons m rest ih => intro i buf; simp [writeMACs, String.intercalate.go, ih]

theorem writeMACs_eq (macs : List String) :
    writeMACs macs 0 "" = String.intercalate " | " macs := by
  cases macs with
  | nil => simp [writeMACs, String.intercalate]
  | cons m rest => simp [writeMACs, String.intercalate, writeMACs_succ]

theorem writeMACs_succ_length (rest : List String) :
    ∀ (i : Nat) (buf : String),
      (writeMACs rest (i + 1) buf).length =
        buf.length + (rest.map String.length).sum + 3 * rest.length := by
  induction rest with
  | nil => intro i buf; simp [writeMACs]
  | cons m rest ih =>
    intro i buf
    have h3 : (" | " : String).length = 3 := by decide
    simp [writeMACs, ih, String.length_append, h3]
    omega

theorem writeMACs_prepend (rest : List String) :
    ∀ (i j : Nat) (buf x : String),
      writeMACs rest (i + 1) (x ++ buf) = x ++ writeMACs rest (j + 1) buf := by
  induction rest with
  | nil => intro i j buf x; simp [writeMACs]
  | cons m rest ih =>
    intro i j buf x
    have := ih (i + 1) (j + 1) (buf ++ " | " ++ m) x
    simpa [writeMACs, String.append_assoc] using this

/-- C7 fails as stated: on a host with both records set, the management columns
are those of `Management`, not those of `IPMI`. -/
theorem hostRow_ipmi_not_first :
    hostBothEndpoints.IPMI = some { MACAddress := "aa:aa:aa:aa:aa:aa", Hostname := "10.0.0.1" } ∧
    hostRow hostBothEndpoints =
      ["node1", "", "", "bb:bb:bb:bb:bb:bb", "10.0.0.2", "On"] ∧
    ¬ ((hostRow hostBothEndpoints)[3]? = some "aa:aa:aa:aa:aa:aa" ∧
        (hostRow hostBothEndpoints)[4]? = some "10.0.0.1") := by
  refine ⟨rfl, by decide, by decide⟩

/-- C7 as amended: in `host list` the management MAC and IP columns (fourth and
fifth of the six) are those of `Management` whenever it is set, also when IPMI is
set as well; otherwise those of `IPMI` when it is set; otherwise both are empty.
The rows printed on success are the rows of the hosts, in order. -/
theorem hostRow_management_columns (h : model.Host) :
    (hostRow h).length = 6 ∧
    ((hostRow h)[3]?, (hostRow h)[4]?) =
      (match h.Management, h.IPMI with
        | some mgmt, _ => (some mgmt.MacAddress, some mgmt.IPAddress)
        | none, some ipmi => (some ipmi.MACAddress, some ipmi.Hostname)
        | none, none => (some "", some "")) ∧
    ∀ (net : Call → Reply (List model.Host)) (serverURL : String),
      ((hostListAction net serverURL).run).world.tables =
        if (net ⟨"GET", serverURL, "/v1/hosts", Payload.null⟩).err = none ∧
            (net ⟨"GET", serverURL, "/v1/hosts", Payload.null⟩).statusCode = 200
        then [{ header := ["Name", "Configuration", "MAC", "MGMT MAC", "MGMT IP", "Power State"],
                autoWrapText := false,
                rows := (net ⟨"GET", serverURL, "/v1/hosts", Payload.null⟩).holder.map hostRow }]
        else [] := by
  refine ⟨by simp [hostRow], ?_, ?_⟩
  · cases hm : h.Management <;> cases hi : h.IPMI <;> simp [hostRow, hm, hi]
  · intro net serverURL
    rw [hostList_run]
    split_ifs with hok
    · simp [Res.world, World.tables]
    · cases (net ⟨"GET", serverURL, "/v1/hosts", Payload.null⟩).err <;>
        simp [Res.world, World.tables]

theorem hostList_tables (net : Call → Reply (List model.Host)) (serverURL : String) :
    ((hostListAction net serverURL).run).world.tables =
      if (net ⟨"GET", serverURL, "/v1/hosts", Payload.null⟩).err = none ∧
          (net ⟨"GET", serverURL, "/v1/hosts", Payload.null⟩).statusCode = 200
      then [{ header := ["Name", "Configuration", "MAC", "MGMT MAC", "MGMT IP", "Power State"],
              autoWrapText := false,
              rows := (net ⟨"GET", serverURL, "/v1/hosts", Payload.null⟩).holder.map hostRow }]
      else [] := by
  rw [hostList_run]
  split_ifs with hok
  · simp [Res.world, World.tables]
  · cases (net ⟨"GET", serverURL, "/v1/hosts", Payload.null⟩).err <;>
      simp [Res.world, World.tables]

/-- C8: the table printed by `host list` on success has one row per host of the
reply, in order, under the header Name, Configuration, MAC, MGMT MAC, MGMT IP,
Power State; in the row of every host the MAC column (third of the six) is the
MAC addresses of the host in stored order joined by " | ": empty for no address,
the address itself for one address, and in general as long as the addresses
together plus three characters for each of the len-1 separators; the
configuration column (second) is the name of the configuration when the host has
one and empty otherwise. Without success no table is printed. -/
theorem hostRow_mac_column (h : model.Host) :
    (hostRow h)[2]? = some (String.intercalate " | " h.MACAddresses) ∧
    (hostRow h)[1]? = some (match h.Configuration with
      | some c => c.Name
      | none => "") ∧
    writeMACs [] 0 "" = "" ∧
    (∀ a : String, writeMACs [a] 0 "" = a) ∧
    (∀ (a b : String) (rest : List String),
      writeMACs (a :: b :: rest) 0 "" = a ++ " | " ++ writeMACs (b :: rest) 0 "") ∧
    (writeMACs h.MACAddresses 0 "").length =
      (h.MACAddresses.map String.length).sum + 3 * (h.MACAddresses.length - 1) ∧
    (∀ (net : Call → Reply (List model.Host)) (serverURL : String),
      ((hostListAction net serverURL).run).world.tables =
        if (net ⟨"GET", serverURL, "/v1/hosts", Payload.null⟩).err = none ∧
            (net ⟨"GET", serverURL, "/v1/hosts", Payload.null⟩).statusCode = 200
        then [{ header := ["Name", "Configuration", "MAC", "MGMT MAC", "MGMT IP", "Power State"],
                autoWrapText := false,
                rows := (net ⟨"GET", serverURL, "/v1/hosts", Payload.null⟩).holder.map hostRow }]
        else []) ∧
    (∀ (net : Call → Reply (List model.Host)) (serverURL : String),
      ((hostListAction net serverURL).run).world.tables.map
          (fun t => (t.header[1]?, t.header[2]?, t.rows.map (fun r => (r[1]?, r[2]?)))) =
        if (net ⟨"GET", serverURL, "/v1/hosts", Payload.null⟩).err = none ∧
            (net ⟨"GET", serverURL, "/v1/hosts", Payload.null⟩).statusCode = 200
        then [(some "Configuration", some "MAC",
                (net ⟨"GET", serverURL, "/v1/hosts", Payload.null⟩).holder.map
                  (fun h => (some (match h.Configuration with
                                    | some c => c.Name
                                    | none => ""),
                             some (String.intercalate " | " h.MACAddresses))))]
        else []) := by
  have hmac : ∀ g : model.Host,
      (hostRow g)[2]? = some (String.intercalate " | " g.MACAddresses) := fun g => by
    simp [hostRow, writeMACs_eq]
  have hcfg : ∀ g : model.Host, (hostRow g)[1]? = some (match g.Configuration with
      | some c => c.Name
      | none => "") := fun g => by
    cases hc : g.Configuration <;> simp [hostRow, hc]
  refine ⟨hmac h, hcfg h, by simp [writeMACs], fun a => by simp [writeMACs], ?_, ?_,
    hostList_tables, ?_⟩
  · intro a b rest
    have := writeMACs_prepend rest 1 0 b (a ++ " | ")
    simpa [writeMACs] using this
  · cases h.MACAddresses with
    | nil => simp [writeMACs]
    | cons m rest => simp [writeMACs, writeMACs_succ_length]
  · intro net serverURL
    rw [hostList_tables]
    split_ifs with hok
    · simp only [List.map_cons, List.map_nil, List.map_map]
      have hfun : ((fun r : List String => (r[1]?, r[2]?)) ∘ hostRow) =
          fun g : model.Host => (some (match g.Configuration with
                                    | some c => c.Name
                                    | none => ""),
                             some (String.intercalate " | " g.MACAddresses)) := by
        funext g
        simp only [Function.comp, hmac g, hcfg g]
      rw [hfun]
      rfl
    · rfl

/-! ## Properties of `HTTP` -/

namespace http

theorem decodes_append (a b : List Event) : decodes (a ++ b) = decodes a ++ decodes b := by
  simp [decodes, List.filterMap_append]

theorem HTTP_eq {D H : Type} (env : Env D H) (method baseURL path : String)
    (data : D) (responseHolder : Option H) (s : State) :
    HTTP env method baseURL path data responseHolder s =
      match env.checkRequest method (baseURL ++ path) with
      | some err =>
        { status := -1, err := some err, holder := responseHolder,
          state := { next := s.next + 1,
                     trace := s.trace ++
                       [Event.log (" -> Sending " ++ method ++ " request on " ++ (baseURL ++ path))] } }
      | none =>
        match env.roundTrip (boundedClient (s.next + 1))
            (builtRequest env method baseURL path data) with
        | .error err =>
          { status := 0, err := some err, holder := responseHolder,
            state := { next := s.next + 2,
                       trace := s.trace ++
                         [Event.log (" -> Sending " ++ method ++ " request on " ++ (baseURL ++ path)),
                          Event.send (boundedClient (s.next + 1))
                            (builtRequest env method baseURL path data)] } }
        | .ok resp =>
          { status := resp.StatusCode, err := none,
            holder := responseHolder.map (fun h => (env.decode resp.Body h).1),
            state := { next := s.next + 2,
                       trace := s.trace ++
                         [Event.log (" -> Sending " ++ method ++ " request on " ++ (baseURL ++ path)),
                          Event.send (boundedClient (s.next + 1))
                            (builtRequest env method baseURL path data)] ++
                         (match responseHolder with
                           | some _ => [Event.decodeBody resp.Body]
                           | none => []) ++
                         [Event.log (" -> Response code " ++ toString resp.StatusCode),
                          Event.closeBody] } } := by
  have hc : (5 : Int) * Second = 5000000000 := by decide
  have hh : HeaderSet [] "Content-Type" "application/json"
      = [("Content-Type", "application/json")] := by decide
  simp only [HTTP, State.alloc, State.emit, hc, hh, boundedClient, builtRequest]
  cases env.checkRequest method (baseURL ++ path) with
  | some e => rfl
  | none =>
    simp only []
    cases env.roundTrip _ _ with
    | error e => simp [Nat.add_assoc]
    | ok resp => cases responseHolder <;> simp [Nat.add_assoc]

/-- C9: `HTTP` returns (-1, err) when the request cannot be built, (0, err) when
sending it fails, and (status code of the response, nil) otherwise; so an error
never comes with a positive status, the outcome of the decoder never reaches the
returned values, the body is decoded whenever a response arrived and a holder was
given, whatever the status code, and it is not read when the holder is nil. -/
theorem HTTP_result_shapes {D H : Type} (env : Env D H) (method baseURL path : String)
    (data : D) (responseHolder : Option H) (s : State) :
    ((HTTP env method baseURL path data responseHolder s).status,
      (HTTP env method baseURL path data responseHolder s).err) =
      (match env.checkRequest method (baseURL ++ path) with
        | some e => (-1, some e)
        | none =>
          match env.roundTrip (boundedClient (s.next + 1))
              (builtRequest env method baseURL path data) with
          | .error e => (0, some e)
          | .ok resp => (resp.StatusCode, none)) ∧
    ((HTTP env method baseURL path data responseHolder s).err = none ∨
      (HTTP env method baseURL path data responseHolder s).status = -1 ∨
      (HTTP env method baseURL path data responseHolder s).status = 0) ∧
    (∀ dec : String → H → H × GoError,
      ((HTTP { env with decode := dec } method baseURL path data responseHolder s).status,
        (HTTP { env with decode := dec } method baseURL path data responseHolder s).err) =
      ((HTTP env method baseURL path data responseHolder s).status,
        (HTTP env method baseURL path data responseHolder s).err)) ∧
    decodes (HTTP env method baseURL path data responseHolder s).state.trace =
      decodes s.trace ++
        (match responseHolder, env.checkRequest method (baseURL ++ path),
            env.roundTrip (boundedClient (s.next + 1))
              (builtRequest env method baseURL path data) with
          | some _, none, .ok resp => [resp.Body]
          | _, _, _ => []) ∧
    (HTTP env method baseURL path data responseHolder s).holder =
      (match responseHolder, env.checkRequest method (baseURL ++ path),
          env.roundTrip (boundedClient (s.next + 1))
            (builtRequest env method baseURL path data) with
        | some h, none, .ok resp => some (env.decode resp.Body h).1
        | _, _, _ => responseHolder) := by
  have key : ∀ e : Env D H,
      ((HTTP e method baseURL path data responseHolder s).status,
        (HTTP e method baseURL path data responseHolder s).err) =
      (match e.checkRequest method (baseURL ++ path) with
        | some err => (-1, some err)
        | none =>
          match e.roundTrip (boundedClient (s.next + 1))
              (builtRequest e method baseURL path data) with
          | .error err => (0, some err)
          | .ok resp => (resp.StatusCode, none)) := by
    intro e
    rw [HTTP_eq]
    cases e.checkRequest method (baseURL ++ path) with
    | some err => rfl
    | none =>
      simp only []
      cases e.roundTrip _ _ <;> rfl
  refine ⟨key env, ?_, ?_, ?_, ?_⟩
  · rw [HTTP_eq]
    cases env.checkRequest method (baseURL ++ path) with
    | some err => simp
    | none =>
      simp only []
      cases env.roundTrip _ _ <;> simp
  · intro dec
    rw [key, key]
    rfl
  · rw [HTTP_eq]
    cases env.checkRequest method (baseURL ++ path) with
    | some err => cases responseHolder <;> simp [decodes_append, decodes]
    | none =>
      simp only []
      cases env.roundTrip _ _ with
      | error e => cases responseHolder <;> simp [decodes_append, decodes]
      | ok resp => cases responseHolder <;> simp [decodes_append, decodes]
  · rw [HTTP_eq]
    cases env.checkRequest method (baseURL ++ path) with
    | some err => cases responseHolder <;> simp
    | none =>
      simp only []
      cases env.roundTrip _ _ with
      | error e => cases responseHolder <;> simp
      | ok resp => cases responseHolder <;> simp

end http

/-! ## Properties of the deployment orchestrator -/

namespace Orchestrator

theorem lookup_name {reg : Registry} {m : String} {h : Host} (hl : lookup reg m = some h) :
    h.name = m := by
  have := List.find?_some hl
  simpa using this

theorem lookup_setConfiguration (reg : Registry) (n m : String) (ref : Option Configuration) :
    lookup (setConfiguration reg n ref) m =
      (lookup reg m).map (fun h => if h.name == n then { h with configuration := ref } else h) := by
  have hp : ((fun h : Host => h.name == m) ∘
      fun h : Host => if h.name == n then { h with configuration := ref } else h)
      = fun h : Host => h.name == m := by
    funext h
    by_cases hn : h.name = n <;> simp [hn]
  unfold lookup setConfiguration
  rw [List.find?_map, hp]

theorem assignAll_lookup_none (cfg : Configuration)
    (found : List (String × Bool × Option Host)) :
    ∀ (reg : Registry) (m : String), lookup reg m = none →
      lookup (assignAll cfg reg found) m = none := by
  induction found with
  | nil => intro reg m hm; simpa [assignAll] using hm
  | cons e rest ih =>
    intro reg m hm
    obtain ⟨n, b, f⟩ := e
    cases f with
    | none => simpa [assignAll] using ih reg m hm
    | some h0 =>
      simp only [assignAll]
      apply ih
      rw [lookup_setConfiguration, hm]
      rfl

theorem assignAll_lookup_some (cfg : Configuration)
    (found : List (String × Bool × Option Host)) :
    ∀ (reg : Registry) (m : String) (h : Host), lookup reg m = some h →
      lookup (assignAll cfg reg found) m =
        some { h with configuration :=
          if found.any (fun e => e.1 == m && e.2.2.isSome) then some cfg
          else h.configuration } := by
  induction found with
  | nil => intro reg m h hm; simpa [assignAll] using hm
  | cons e rest ih =>
    intro reg m h hm
    obtain ⟨n, b, f⟩ := e
    have hname := lookup_name hm
    cases f with
    | none =>
      simp only [assignAll]
      rw [ih reg m h hm, List.any_cons]
      simp only [Option.isSome_none, Bool.and_false, Bool.false_or]
    | some h0 =>
      simp only [assignAll]
      by_cases e : m = n
      · have h1 : lookup (setConfiguration reg n (some cfg)) m =
            some { h with configuration := some cfg } := by
          rw [lookup_setConfiguration, hm]
          simp [hname, e]
        rw [ih _ m _ h1]
        simp [e]
      · have h1 : lookup (setConfiguration reg n (some cfg)) m = some h := by
          rw [lookup_setConfiguration, hm]
          simp [hname, e]
        have e2 : (n == m) = false := by
          simp only [beq_eq_false_iff_ne, ne_eq]
          exact fun h => e h.symm
        rw [ih _ m _ h1, List.any_cons]
        simp only [e2, Bool.false_and, Bool.false_or]

/-- C6: with a configuration that exists, `deploy` succeeds and lists the entries in
request order; an unknown name gets `Failed(HostUnknown)` for its own entry and
stays unknown, while every known host of the batch ends with the configuration
assigned and, when a reboot was requested, with the verdict of its own reboot
(`Rebooted`, or `Failed` with the reason of the adapter). In the scenario of
section 8, A is `Rebooted`, B is `Failed(NoManagementEndpoint)`, `missing` is
`Failed(HostUnknown)`, and A and B both hold configuration `prod`. -/
theorem deploy_mixed_batch :
    (∀ (cat : Catalog) (backend : Backend) (reg : Registry) (configurationName : String)
        (requests : List (String × Bool)) (cfg : Configuration),
      resolve cat configurationName = some cfg →
      ∃ (reg1 : Registry) (result : List (String × Outcome)),
        deploy cat backend reg configurationName requests = Except.ok (reg1, result) ∧
        result.length = requests.length ∧
        result.map Prod.fst = requests.map Prod.fst ∧
        ∀ (i : Nat) (name : String) (rb : Bool), requests[i]? = some (name, rb) →
          (lookup reg name = none →
            result[i]? = some (name, Outcome.Failed Reason.HostUnknown) ∧
            lookup reg1 name = none) ∧
          (∀ h : Host, lookup reg name = some h →
            lookup reg1 name = some { h with configuration := some cfg } ∧
            result[i]? = some (name,
              if rb then
                (match reboot backend h with
                  | none => Outcome.Rebooted
                  | some reason => Outcome.Failed reason)
              else Outcome.ConfigApplied))) ∧
    deploy [prod] backendOk [hostA, hostB] "prod"
        [("A", true), ("B", true), ("missing", true)] =
      Except.ok
        ([{ hostA with configuration := some prod }, { hostB with configuration := some prod }],
         [("A", Outcome.Rebooted),
          ("B", Outcome.Failed Reason.NoManagementEndpoint),
          ("missing", Outcome.Failed Reason.HostUnknown)]) := by
  refine ⟨?_, rfl⟩
  intro cat backend reg configurationName requests cfg hcfg
  refine ⟨assignAll cfg reg (resolveAll reg requests),
    (resolveAll reg requests).map (fun e => (e.1, entryOutcome backend e.2.2 e.2.1)),
    by simp only [deploy, hcfg], by simp [resolveAll],
    by simp [resolveAll, Function.comp_def], ?_⟩
  intro i name rb hi
  have hmem : (name, rb) ∈ requests := List.mem_iff_getElem?.mpr ⟨i, hi⟩
  refine ⟨fun hnone => ⟨?_, assignAll_lookup_none cfg _ reg name hnone⟩,
    fun h hsome => ⟨?_, ?_⟩⟩
  · simp [resolveAll, hi, hnone, entryOutcome]
  · rw [assignAll_lookup_some cfg _ reg name h hsome]
    have hany : (resolveAll reg requests).any (fun e => e.1 == name && e.2.2.isSome) = true := by
      rw [List.any_eq_true]
      exact ⟨(name, rb, lookup reg name), List.mem_map.mpr ⟨(name, rb), hmem, rfl⟩,
        by simp [hsome]⟩
    simp [hany]
  · simp [resolveAll, hi, hsome, entryOutcome]

/-- Witness of C6: the general statement applied to the scenario of section 8. -/
theorem deploy_mixed_batch_witness :
    resolve [prod] "prod" = some prod ∧
    ∃ (reg1 : Registry) (result : List (String × Outcome)),
      deploy [prod] backendOk [hostA, hostB] "prod"
          [("A", true), ("B", true), ("missing", true)] = Except.ok (reg1, result) ∧
      result.length = 3 ∧
      result.map Prod.fst = ["A", "B", "missing"] ∧
      result[2]? = some ("missing", Outcome.Failed Reason.HostUnknown) ∧
      lookup reg1 "missing" = none ∧
      lookup reg1 "A" = some { hostA with configuration := some prod } ∧
      lookup reg1 "B" = some { hostB with configuration := some prod } := by
  refine ⟨by decide, ?_⟩
  obtain ⟨reg1, result, hd, hlen, hnames, hall⟩ :=
    deploy_mixed_batch.1 [prod] backendOk [hostA, hostB] "prod"
      [("A", true), ("B", true), ("missing", true)] prod (by decide)
  refine ⟨reg1, result, hd, hlen, hnames, ?_, ?_, ?_, ?_⟩
  · exact ((hall 2 "missing" true rfl).1 (by decide)).1
  · exact ((hall 2 "missing" true rfl).1 (by decide)).2
  · exact ((hall 0 "A" true rfl).2 hostA (by decide)).1
  · exact ((hall 1 "B" true rfl).2 hostB (by decide)).1

end Orchestrator

end PxePilot
